import Mathlib

set_option maxRecDepth 200000

/-!
Verification of the card-trader arbitrage detection core.

This file gives a shallow embedding, in Lean 4, of the opportunity
detection algorithm of the repository: the fee and risk model of
`src/layers/shared/python/shared_utils.py` and the pairing, filtering,
deduplication and ranking pipeline of
`src/infrastructure/lambda_functions/arbitrage_detector/handler.py`
(class `ArbitrageDetector`).  Python `Decimal` amounts are modelled as
exact rationals (`ℚ`), with the two-decimal `quantize(..., ROUND_HALF_UP)`
steps made explicit exactly where the source quantizes.  Strings are
Lean `String`s; Python's ASCII `str.lower()` / `str.strip()` are embedded
as `py_lower` / `py_strip`.
-/

/-- ASCII lowercasing of one character, as Python's `str.lower()` acts on
the ASCII inputs used by the detector. -/
def lower_char (c : Char) : Char :=
  if 'A' ≤ c ∧ c ≤ 'Z' then Char.ofNat (c.toNat + 32) else c

/-- Embedding of Python's `str.lower()` (ASCII range). -/
def py_lower (s : String) : String := ⟨s.data.map lower_char⟩

/-- Whitespace test used by `py_strip`. -/
def is_space_char (c : Char) : Bool := c = ' ' ∨ c = '\t' ∨ c = '\n' ∨ c = '\r'

/-- Embedding of Python's `str.strip()`: drop leading and trailing whitespace. -/
def py_strip (s : String) : String :=
  ⟨((s.data.dropWhile is_space_char).reverse.dropWhile is_space_char).reverse⟩

/-- Round a rational to the nearest integer, ties away from zero: the
integer-level content of `decimal.ROUND_HALF_UP`. -/
def round_half_up (q : ℚ) : ℤ :=
  if 0 ≤ q then ⌊q + 1/2⌋ else -⌊-q + 1/2⌋

/-- Embedding of `Decimal.quantize(Decimal('0.01'), rounding=ROUND_HALF_UP)`:
round to two decimal places, ties away from zero. -/
def quantize2 (q : ℚ) : ℚ := (round_half_up (q * 100) : ℚ) / 100

/-- The fee schedule of `calculate_platform_fees` (`shared_utils.py`),
keyed by lower-cased platform name; the `'default'` entry is the
fall-through rate. -/
def fee_rate (p : String) : ℚ :=
  if p = "ebay" then 125/1000
  else if p = "tcgplayer" then 11/100
  else if p = "comc" then 20/100
  else if p = "mercari" then 10/100
  else if p = "facebook" then 5/100
  else if p = "cardmarket" then 8/100
  else 10/100

/-- Embedding of `calculate_platform_fees(platform, amount)` of `shared_utils.py`:
look up the commission rate by the lower-cased platform name and return
`amount * rate` quantized to two decimals with `ROUND_HALF_UP`. -/
def calculate_platform_fees (platform : String) (amount : ℚ) : ℚ :=
  quantize2 (amount * fee_rate (py_lower platform))

/-- The `condition_hierarchy` table of `assess_condition_compatibility`
(`shared_utils.py`), transcribed entry for entry. -/
def condition_hierarchy : List (String × ℤ) :=
  [("gem mint", 10), ("pristine", 10), ("black label", 10),
   ("mint", 9), ("perfect", 9), ("psa 10", 10), ("bgs 10", 10),
   ("near mint", 8), ("nm", 8), ("nm/mint", 8), ("psa 9", 9), ("bgs 9", 9),
   ("excellent", 7), ("ex", 7), ("psa 8", 8), ("bgs 8", 8),
   ("very good", 6), ("vg", 6), ("psa 7", 7), ("bgs 7", 7),
   ("good", 5), ("gd", 5), ("psa 6", 6), ("bgs 6", 6),
   ("lightly played", 4), ("lp", 4), ("light play", 4), ("psa 5", 5),
   ("moderately played", 3), ("mp", 3), ("played", 3), ("psa 4", 4),
   ("heavily played", 2), ("hp", 2), ("psa 3", 3),
   ("damaged", 1), ("dmg", 1), ("poor", 1), ("psa 2", 2), ("psa 1", 1),
   ("unknown", 4), ("ungraded", 4), ("", 4)]

/-- Embedding of `condition_hierarchy.get(cond.lower().strip(), 4)` of the source. -/
def condition_score (cond : String) : ℤ :=
  (condition_hierarchy.lookup (py_strip (py_lower cond))).getD 4

/-- Embedding of `assess_condition_compatibility(buy_condition, sell_condition)` of
`shared_utils.py`: the buy score must be at least the sell score minus
one (one-grade tolerance). -/
def assess_condition_compatibility (buy_condition sell_condition : String) : Bool :=
  condition_score buy_condition ≥ condition_score sell_condition - 1

/-- A marketplace listing as consumed by the detector.  Fields mirror the
keys the handler reads from a listing item; `scraped_age_hours` embeds
the freshness information of the `scraped_at` timestamp at detection
time: `some h` when `datetime.fromisoformat` succeeds and the listing is
`h` hours old, `none` when the timestamp fails to parse (the
`ValueError`/`TypeError` branch of `calculate_risk_score`). -/
structure Listing where
  platform : String
  item_id : String
  price : ℚ
  shipping_cost : ℚ
  total_cost : ℚ
  condition : String
  seller_rating : ℚ
  listing_url : String
  scraped_age_hours : Option ℚ
deriving DecidableEq, Repr

/-- The `high_risk_platforms` list of `calculate_risk_score`. -/
def high_risk_platforms : List String := ["mercari", "facebook", "craigslist", "offerup"]

/-- The `medium_risk_platforms` list of `calculate_risk_score`. -/
def medium_risk_platforms : List String := ["comc", "cardmarket"]

/-- Embedding of `calculate_risk_score(buy_listing, sell_listing)` of `shared_utils.py`:
base 1.0, plus cumulative seller-reputation penalties, a platform-risk
penalty, a too-good-to-be-true margin penalty, a freshness penalty, and a
condition-mismatch penalty, capped at 5.0. -/
def calculate_risk_score (buy_listing sell_listing : Listing) : ℚ :=
  let r1 : ℚ := 1
  let r2 := if buy_listing.seller_rating < 95 then r1 + 3/10 else r1
  let r3 := if buy_listing.seller_rating < 90 then r2 + 5/10 else r2
  let r4 := if buy_listing.seller_rating < 85 then r3 + 7/10 else r3
  let buy_platform := py_lower buy_listing.platform
  let sell_platform := py_lower sell_listing.platform
  let r5 :=
    if buy_platform ∈ high_risk_platforms ∨ sell_platform ∈ high_risk_platforms then r4 + 4/10
    else if buy_platform ∈ medium_risk_platforms ∨ sell_platform ∈ medium_risk_platforms then
      r4 + 2/10
    else r4
  let buy_total := buy_listing.total_cost
  let sell_price := sell_listing.price
  let r6 :=
    if 0 < buy_total then
      if 1 < (sell_price - buy_total) / buy_total then r5 + 8/10
      else if 1/2 < (sell_price - buy_total) / buy_total then r5 + 4/10
      else r5
    else r5
  let r7 :=
    buy_listing.scraped_age_hours.elim (r6 + 1/10) fun h =>
      if h < 1 then r6 + 2/10 else r6
  let r8 :=
    if assess_condition_compatibility buy_listing.condition sell_listing.condition then r7
    else r7 + 1
  min r8 5

/-- Embedding of `calculate_confidence_level(risk_score)` of `shared_utils.py`:
`100 - (risk - 1.0) * 20`, clamped into `[10, 100]`. -/
def calculate_confidence_level (risk_score : ℚ) : ℚ :=
  max (min (100 - (risk_score - 1) * 20) 100) 10

/-- The threshold configuration of `ArbitrageDetector.__init__`:
`min_profit_margin` (env default 0.15), `max_risk_score` (env default
2.0), `max_opportunities_per_card` (env default 10), the hard-coded
`min_profit_amount` (5.00) and `max_price_ratio` (0.8). -/
structure DetectorConfig where
  min_profit_margin : ℚ
  max_risk_score : ℚ
  max_opportunities_per_card : ℕ
  min_profit_amount : ℚ
  max_price_ratio : ℚ
deriving DecidableEq, Repr

/-- The configuration obtained from the default environment values. -/
def default_config : DetectorConfig :=
  { min_profit_margin := 15/100
    max_risk_score := 2
    max_opportunities_per_card := 10
    min_profit_amount := 5
    max_price_ratio := 8/10 }

/-- An arbitrage opportunity record, mirroring the dict built by
`_calculate_detailed_opportunity`.  The wall-clock fields `created_at` /
`expires_at` are omitted; `composite_score` (added to the dict later, by
`_filter_and_rank_opportunities`) is carried as a field initialised to 0. -/
structure Opportunity where
  card_name : String
  buy_platform : String
  sell_platform : String
  platform_pair : String
  buy_price : ℚ
  sell_price : ℚ
  buy_shipping : ℚ
  buy_total : ℚ
  platform_fees : ℚ
  net_sell_amount : ℚ
  profit_amount : ℚ
  profit_margin : ℚ
  risk_score : ℚ
  confidence_level : ℚ
  buy_url : String
  buy_item_id : String
  sell_item_id : String
  buy_condition : String
  sell_condition : String
  buy_seller_rating : ℚ
  sell_seller_rating : ℚ
  status : String
  composite_score : ℚ
deriving DecidableEq, Repr

/-- Embedding of `_calculate_detailed_opportunity(buy_listing, sell_listing, card_name)`:
compute fees, net sell amount, profit and margin, drop the record when
`profit_margin < min_profit_margin` or `profit_amount < min_profit_amount`,
compute the risk score, drop the record when `risk_score > max_risk_score`,
otherwise assemble the full opportunity. -/
def calculate_detailed_opportunity (cfg : DetectorConfig) (buy_listing sell_listing : Listing)
    (card_name : String) : Option Opportunity :=
  let buy_price := buy_listing.price
  let buy_shipping := buy_listing.shipping_cost
  let buy_total := buy_listing.total_cost
  let sell_price := sell_listing.price
  let buy_platform := buy_listing.platform
  let sell_platform := sell_listing.platform
  let platform_fees := calculate_platform_fees sell_platform sell_price
  let net_sell_amount := sell_price - platform_fees
  let profit_amount := net_sell_amount - buy_total
  let profit_margin := if 0 < buy_total then profit_amount / buy_total else 0
  if profit_margin < cfg.min_profit_margin ∨ profit_amount < cfg.min_profit_amount then none
  else
    let risk_score := calculate_risk_score buy_listing sell_listing
    if cfg.max_risk_score < risk_score then none
    else
      some
        { card_name := card_name
          buy_platform := buy_platform
          sell_platform := sell_platform
          platform_pair := buy_platform ++ "-to-" ++ sell_platform
          buy_price := buy_price
          sell_price := sell_price
          buy_shipping := buy_shipping
          buy_total := buy_total
          platform_fees := platform_fees
          net_sell_amount := net_sell_amount
          profit_amount := profit_amount
          profit_margin := profit_margin
          risk_score := risk_score
          confidence_level := calculate_confidence_level risk_score
          buy_url := buy_listing.listing_url
          buy_item_id := buy_listing.item_id
          sell_item_id := sell_listing.item_id
          buy_condition := buy_listing.condition
          sell_condition := sell_listing.condition
          buy_seller_rating := buy_listing.seller_rating
          sell_seller_rating := sell_listing.seller_rating
          status := "ACTIVE"
          composite_score := 0 }

/-- Embedding of `_analyze_platform_pair(buy_listings, sell_listings, buy_platform,
sell_platform, card_name)`: truncate both sides to 50 candidates and, for
every pair, apply the early filters (self-pair, non-positive amounts,
estimated-profit floor, 80% price-ratio bound, condition compatibility)
before computing the detailed opportunity. -/
def analyze_platform_pair (cfg : DetectorConfig) (buy_listings sell_listings : List Listing)
    (sell_platform card_name : String) : List Opportunity :=
  (buy_listings.take 50).flatMap fun buy_listing =>
    (sell_listings.take 50).filterMap fun sell_listing =>
      if buy_listing.item_id = sell_listing.item_id ∧
          buy_listing.platform = sell_listing.platform then none
      else if buy_listing.total_cost ≤ 0 ∨ sell_listing.price ≤ 0 then none
      else if sell_listing.price - buy_listing.total_cost -
          calculate_platform_fees sell_platform sell_listing.price < cfg.min_profit_amount then
        none
      else if sell_listing.price * cfg.max_price_ratio < buy_listing.total_cost then none
      else if ¬ assess_condition_compatibility buy_listing.condition sell_listing.condition then
        none
      else calculate_detailed_opportunity cfg buy_listing sell_listing card_name

/-- Stable insertion: place `x` after every element `y` with `lt y x` and
before the first element that is not strictly earlier in the order. -/
def insert_by (lt : α → α → Bool) (x : α) : List α → List α
  | [] => [x]
  | y :: ys => if lt y x then y :: insert_by lt x ys else x :: y :: ys

/-- Stable sort by the strict order `lt` (insertion sort): the unique
sorted permutation that keeps the original relative order of ties, the
semantics of Python's `list.sort`. -/
def sort_by (lt : α → α → Bool) (l : List α) : List α := l.foldr (insert_by lt) []

/-- The platform names in first-occurrence order: Python dict-key order of
`_group_listings_by_platform`. -/
def platforms_in_order (listings : List Listing) : List String :=
  listings.foldl (fun acc l => if l.platform ∈ acc then acc else acc ++ [l.platform]) []

/-- Embedding of `_group_listings_by_platform(listings)`: group by platform (insertion
order of first occurrence) and stably sort each group by ascending
`total_cost`. -/
def group_listings_by_platform (listings : List Listing) : List (String × List Listing) :=
  (platforms_in_order listings).map fun p =>
    (p, sort_by (fun a b => a.total_cost < b.total_cost)
          (listings.filter fun l => l.platform = p))

/-- All index-ordered pairs of a list: the order of
`itertools.combinations(platforms, 2)`. -/
def pair_combinations : List α → List (α × α)
  | [] => []
  | x :: xs => (xs.map fun y => (x, y)) ++ pair_combinations xs

/-- Embedding of `_find_cross_platform_opportunities(platform_listings, card_name)`:
for every unordered platform pair, analyze both directions. -/
def find_cross_platform_opportunities (cfg : DetectorConfig)
    (platform_listings : List (String × List Listing)) (card_name : String) :
    List Opportunity :=
  (pair_combinations platform_listings).flatMap fun pq =>
    analyze_platform_pair cfg pq.1.2 pq.2.2 pq.2.1 card_name ++
      analyze_platform_pair cfg pq.2.2 pq.1.2 pq.1.1 card_name

/-- The deduplication key of `_filter_and_rank_opportunities`:
`f"{buy_item_id}#{sell_item_id}"`. -/
def opp_key (o : Opportunity) : String := o.buy_item_id ++ "#" ++ o.sell_item_id

/-- One step of the deduplication dict of `_filter_and_rank_opportunities`:
a new key is appended; a colliding key replaces the stored opportunity
only when the new confidence is strictly higher (insertion position is
kept, as for a Python dict update). -/
def dedup_step (acc : List Opportunity) (o : Opportunity) : List Opportunity :=
  if acc.any fun e => opp_key e = opp_key o then
    acc.map fun e =>
      if opp_key e = opp_key o ∧ e.confidence_level < o.confidence_level then o else e
  else acc ++ [o]

/-- The deduplication pass of `_filter_and_rank_opportunities`, keyed by
`opp_key`, keeping per key the first-seen opportunity of maximal
confidence. -/
def deduplicate (opportunities : List Opportunity) : List Opportunity :=
  opportunities.foldl dedup_step []

/-- The composite ranking score assigned by `_filter_and_rank_opportunities`:
`profit_margin * confidence_level / max(risk_score, 0.1)`. -/
def with_composite_score (o : Opportunity) : Opportunity :=
  { o with composite_score := o.profit_margin * o.confidence_level / max o.risk_score (1/10) }

/-- Embedding of `_filter_and_rank_opportunities(opportunities)`: deduplicate, assign
composite scores, and stably sort by descending composite score. -/
def filter_and_rank_opportunities (opportunities : List Opportunity) : List Opportunity :=
  if opportunities = [] then []
  else
    sort_by (fun a b => b.composite_score < a.composite_score)
      ((deduplicate opportunities).map with_composite_score)

/-- Embedding of `ArbitrageDetector.detect_opportunities(card_name)` after the listing
query: group the fetched listings, enumerate cross-platform pairs, filter
and rank, and return the valid opportunities (the full ranked list). -/
def detect_opportunities (cfg : DetectorConfig) (card_name : String)
    (listings : List Listing) : List Opportunity :=
  if listings = [] then []
  else
    filter_and_rank_opportunities
      (find_cross_platform_opportunities cfg (group_listings_by_platform listings) card_name)

/-- The slice passed to `_store_opportunities`:
`valid_opportunities[:max_opportunities_per_card]`. -/
def stored_opportunities (cfg : DetectorConfig) (card_name : String)
    (listings : List Listing) : List Opportunity :=
  (detect_opportunities cfg card_name listings).take cfg.max_opportunities_per_card

/-- Reference definition, following the specification's words: the
cumulative seller-reputation penalty (+0.3 below 95, a further +0.5 below
90, a further +0.7 below 85). -/
def reputation_penalty (rating : ℚ) : ℚ :=
  (if rating < 95 then 3/10 else 0) + (if rating < 90 then 5/10 else 0) +
    (if rating < 85 then 7/10 else 0)

/-- Reference definition, following the specification's words: +0.4 when
either platform is high-risk, else +0.2 when either is medium-risk. -/
def platform_penalty (buy_platform sell_platform : String) : ℚ :=
  if py_lower buy_platform ∈ high_risk_platforms ∨
      py_lower sell_platform ∈ high_risk_platforms then 4/10
  else if py_lower buy_platform ∈ medium_risk_platforms ∨
      py_lower sell_platform ∈ medium_risk_platforms then 2/10
  else 0

/-- Reference definition, following the specification's words: when the
buy total is positive, +0.8 for a raw margin above 100%, else +0.4 above
50%. -/
def margin_penalty (buy_total sell_price : ℚ) : ℚ :=
  if 0 < buy_total then
    if 1 < (sell_price - buy_total) / buy_total then 8/10
    else if 1/2 < (sell_price - buy_total) / buy_total then 4/10
    else 0
  else 0

/-- Reference definition, following the specification's words: +0.2 for a
capture timestamp under one hour old, +0.1 for an unparseable timestamp. -/
def freshness_penalty : Option ℚ → ℚ
  | some h => if h < 1 then 2/10 else 0
  | none => 1/10

/-- Reference definition, following the specification's words: +1.0 for
incompatible conditions. -/
def condition_penalty (buy_condition sell_condition : String) : ℚ :=
  if assess_condition_compatibility buy_condition sell_condition then 0 else 1

/-- Reference risk score, following the specification's words for claim
C3: base 1.0 plus the five independent penalties, clamped to at most 5.0. -/
def risk_score_spec (buy_listing sell_listing : Listing) : ℚ :=
  min
    (1 + reputation_penalty buy_listing.seller_rating +
      platform_penalty buy_listing.platform sell_listing.platform +
      margin_penalty buy_listing.total_cost sell_listing.price +
      freshness_penalty buy_listing.scraped_age_hours +
      condition_penalty buy_listing.condition sell_listing.condition)
    5

/-!
A small model of the Python dynamic values and exception classes seen by
`safe_decimal` (`shared_utils.py`), for the safety claim about its
totality.  `safe_decimal` catches only `ValueError`, `TypeError` and
`OverflowError`; `decimal.InvalidOperation` subclasses
`DecimalException`, which subclasses `ArithmeticError`, so it is not
caught by that handler.
-/

/-- The exception classes relevant to `safe_decimal`.  `invalidOperation`
stands for `decimal.InvalidOperation`, raised by `Decimal(str)` on a
non-numeric string and by `quantize` on an infinity. -/
inductive PyExc where
  | valueError
  | typeError
  | overflowError
  | invalidOperation
deriving DecidableEq, Repr

/-- A `decimal.Decimal` value: finite, an infinity, or NaN. -/
inductive DecVal where
  | finite (q : ℚ)
  | decInf
  | decNegInf
  | decNaN
deriving DecidableEq, Repr

/-- A Python float: finite, an infinity, or NaN. -/
inductive PyFloat where
  | finite (q : ℚ)
  | inf
  | negInf
  | nan
deriving DecidableEq, Repr

/-- A dynamic Python value as passed to `safe_decimal`. -/
inductive PyVal where
  | pyNone
  | pyDecimal (d : DecVal)
  | pyInt (n : ℤ)
  | pyFloat (f : PyFloat)
  | pyStr (s : String)
deriving DecidableEq, Repr

/-- Fold a digit list into a natural number; `none` on a non-digit or an
empty list. -/
def digits_value (cs : List Char) : Option ℕ :=
  if cs = [] ∨ ¬ cs.all Char.isDigit then none
  else some (cs.foldl (fun acc c => 10 * acc + (c.toNat - '0'.toNat)) 0)

/-- Model of the `decimal.Decimal(string)` constructor on the plain forms
`['+'|'-'] digits ['.' digits]` and the special words `inf`, `infinity`
and `nan` (case-insensitive); every other string is a conversion-syntax
failure.  (Exponent notation and embedded underscores, which the detector
never produces, are not modelled.) -/
def parse_decimal_string (s : String) : Option DecVal :=
  let cs := s.data
  let signed : Bool × List Char :=
    match cs with
    | '-' :: r => (true, r)
    | '+' :: r => (false, r)
    | r => (false, r)
  let neg := signed.1
  let body := signed.2.map lower_char
  if body = "inf".data ∨ body = "infinity".data then
    some (if neg then .decNegInf else .decInf)
  else if body = "nan".data then some .decNaN
  else
    let int_part := signed.2.takeWhile Char.isDigit
    let rest := signed.2.drop int_part.length
    match rest with
    | [] =>
      (digits_value int_part).map fun n =>
        .finite (if neg then -(n : ℚ) else (n : ℚ))
    | '.' :: frac =>
      if frac.all Char.isDigit ∧ (int_part ≠ [] ∨ frac ≠ []) then
        let num : ℚ :=
          ((int_part.foldl (fun acc c => 10 * acc + (c.toNat - '0'.toNat)) 0 : ℕ) : ℚ) +
            ((frac.foldl (fun acc c => 10 * acc + (c.toNat - '0'.toNat)) 0 : ℕ) : ℚ) /
              (10 : ℚ) ^ frac.length
        some (.finite (if neg then -num else num))
      else none
    | _ => none

/-- Model of `str(value)` followed by the `Decimal` constructor, i.e. the
conversion attempted inside `safe_decimal`'s `try` block for non-`Decimal`
values; `Decimal('inf')`, `Decimal('nan')` and `Decimal` of a numeric
string succeed. -/
def decimal_of_pyval : PyVal → Except PyExc DecVal
  | .pyNone => .error .typeError
  | .pyDecimal d => .ok d
  | .pyInt n => .ok (.finite (n : ℚ))
  | .pyFloat (.finite q) => .ok (.finite q)
  | .pyFloat .inf => .ok .decInf
  | .pyFloat .negInf => .ok .decNegInf
  | .pyFloat .nan => .ok .decNaN
  | .pyStr s =>
    match parse_decimal_string s with
    | some d => .ok d
    | none => .error .invalidOperation

/-- Model of `Decimal.quantize(Decimal('0.01'), ROUND_HALF_UP)`: rounds a
finite value, propagates NaN quietly, and raises
`decimal.InvalidOperation` on an infinity. -/
def quantize2_dec : DecVal → Except PyExc DecVal
  | .finite q => .ok (.finite (quantize2 q))
  | .decNaN => .ok .decNaN
  | .decInf => .error .invalidOperation
  | .decNegInf => .error .invalidOperation

/-- The exception classes caught by `safe_decimal`'s
`except (ValueError, TypeError, OverflowError)` clause.
`decimal.InvalidOperation` is not among them. -/
def caught_by_safe_decimal : PyExc → Bool
  | .valueError => true
  | .typeError => true
  | .overflowError => true
  | .invalidOperation => false

/-- Embedding of `safe_decimal(value, default)` of `shared_utils.py`: `None` returns
the default, a `Decimal` is returned unchanged, any other value is
converted via `Decimal(str(value)).quantize(...)`; of the exceptions that
conversion can raise, only `ValueError`, `TypeError` and `OverflowError`
produce the default — anything else propagates to the caller. -/
def safe_decimal (value : PyVal) (default : DecVal) : Except PyExc DecVal :=
  match value with
  | .pyNone => .ok default
  | .pyDecimal d => .ok d
  | v =>
    match decimal_of_pyval v >>= quantize2_dec with
    | .ok d => .ok d
    | .error e => if caught_by_safe_decimal e then .ok default else .error e

/-- The sort key of `_group_listings_by_platform`:
`safe_decimal(listing.get('total_cost', float('inf')))`, applied to a raw
listing whose `total_cost` entry may be absent. -/
def platform_group_sort_key (total_cost : Option PyVal) : Except PyExc DecVal :=
  safe_decimal (total_cost.getD (.pyFloat .inf)) (.finite 0)

/-- Scenario A buy-side listing: platform "ebay", price 10.00, shipping
0, condition "Near Mint", seller rating 100, captured two hours ago. -/
def listing_a_ebay : Listing :=
  { platform := "ebay"
    item_id := "E1"
    price := 10
    shipping_cost := 0
    total_cost := 10
    condition := "Near Mint"
    seller_rating := 100
    listing_url := "https://ebay.example/E1"
    scraped_age_hours := some 2 }

/-- Scenario A sell-side listing: platform "tcgplayer", price 30.00,
shipping 0, condition "Near Mint", seller rating 100, captured two hours
ago. -/
def listing_a_tcg : Listing :=
  { platform := "tcgplayer"
    item_id := "T1"
    price := 30
    shipping_cost := 0
    total_cost := 30
    condition := "Near Mint"
    seller_rating := 100
    listing_url := "https://tcg.example/T1"
    scraped_age_hours := some 2 }

/-- The single opportunity Scenario A produces: buy on ebay at 10.00,
sell on tcgplayer at 30.00, fee 3.30, net 26.70, profit 16.70, margin
1.67, risk 1.8 (base 1.0 plus the +0.8 over-100%-margin penalty),
confidence 84, composite score 1.67 * 84 / 1.8 = 1169/15. -/
def scenario_a_result : Opportunity :=
  { card_name := "Charizard"
    buy_platform := "ebay"
    sell_platform := "tcgplayer"
    platform_pair := "ebay-to-tcgplayer"
    buy_price := 10
    sell_price := 30
    buy_shipping := 0
    buy_total := 10
    platform_fees := 33/10
    net_sell_amount := 267/10
    profit_amount := 167/10
    profit_margin := 167/100
    risk_score := 9/5
    confidence_level := 84
    buy_url := "https://ebay.example/E1"
    buy_item_id := "E1"
    sell_item_id := "T1"
    buy_condition := "Near Mint"
    sell_condition := "Near Mint"
    buy_seller_rating := 100
    sell_seller_rating := 100
    status := "ACTIVE"
    composite_score := 1169/15 }

/-- Scenario C, profitable direction buys the better grade: a cheap
"Mint" listing on ebay. -/
def listing_mint_cheap : Listing :=
  { platform := "ebay"
    item_id := "M1"
    price := 10
    shipping_cost := 0
    total_cost := 10
    condition := "Mint"
    seller_rating := 100
    listing_url := "https://ebay.example/M1"
    scraped_age_hours := some 2 }

/-- Scenario C, an expensive "Heavily Played" listing on tcgplayer. -/
def listing_hp_expensive : Listing :=
  { platform := "tcgplayer"
    item_id := "H1"
    price := 30
    shipping_cost := 0
    total_cost := 30
    condition := "Heavily Played"
    seller_rating := 100
    listing_url := "https://tcg.example/H1"
    scraped_age_hours := some 2 }

/-- Scenario C, profitable direction buys the worse grade: a cheap
"Heavily Played" listing on ebay. -/
def listing_hp_cheap : Listing :=
  { platform := "ebay"
    item_id := "H2"
    price := 10
    shipping_cost := 0
    total_cost := 10
    condition := "Heavily Played"
    seller_rating := 100
    listing_url := "https://ebay.example/H2"
    scraped_age_hours := some 2 }

/-- Scenario C, an expensive "Mint" listing on tcgplayer. -/
def listing_mint_expensive : Listing :=
  { platform := "tcgplayer"
    item_id := "M2"
    price := 30
    shipping_cost := 0
    total_cost := 30
    condition := "Mint"
    seller_rating := 100
    listing_url := "https://tcg.example/M2"
    scraped_age_hours := some 2 }

/-- A listing pool producing more than `max_opportunities_per_card`
distinct valid opportunities: eleven cheap ebay listings against one
expensive tcgplayer listing. -/
def many_buy_listings : List Listing :=
  (["B1", "B2", "B3", "B4", "B5", "B6", "B7", "B8", "B9", "B10", "B11"].map fun i =>
    { platform := "ebay"
      item_id := i
      price := 10
      shipping_cost := 0
      total_cost := 10
      condition := "Near Mint"
      seller_rating := 100
      listing_url := "https://ebay.example/" ++ i
      scraped_age_hours := some 2 : Listing }) ++ [listing_a_tcg]

/-- Scenario E, the lower-confidence instance of a duplicated
buy/sell item pair. -/
def opp_e_low : Opportunity :=
  { scenario_a_result with risk_score := 3, confidence_level := 60, composite_score := 0 }

/-- Scenario E, the higher-confidence instance of the same
buy/sell item pair. -/
def opp_e_high : Opportunity :=
  { scenario_a_result with risk_score := 3/2, confidence_level := 90, composite_score := 0 }

/-- Shift a conditional increment out of an accumulator update. -/
lemma shift_ite_add (c : Prop) [Decidable c] (x a : ℚ) :
    (if c then x + a else x) = x + (if c then a else 0) := by
  split <;> simp

/-- Shift a two-way conditional increment out of an accumulator update. -/
lemma shift_ite_add2 (c d : Prop) [Decidable c] [Decidable d] (x a e : ℚ) :
    (if c then x + a else if d then x + e else x) =
      x + (if c then a else if d then e else 0) := by
  split_ifs <;> simp

/-- Shift the guarded two-way conditional increment of the margin stage
out of an accumulator update. -/
lemma shift_ite_add_nested (p c d : Prop) [Decidable p] [Decidable c] [Decidable d] (x a e : ℚ) :
    (if p then if c then x + a else if d then x + e else x else x) =
      x + (if p then if c then a else if d then e else 0 else 0) := by
  split_ifs <;> simp

/-- Shift the condition-mismatch increment out of an accumulator update. -/
lemma shift_ite_mismatch (c : Prop) [Decidable c] (x : ℚ) :
    (if c then x else x + 1) = x + (if c then 0 else 1) := by
  split <;> simp

/-- Shift the freshness increment out of an accumulator update. -/
lemma shift_fresh_add (o : Option ℚ) (x : ℚ) :
    (o.elim (x + 1/10) fun h => if h < 1 then x + 2/10 else x) =
      x + freshness_penalty o := by
  rcases o with _ | h
  · simp [freshness_penalty, Option.elim]
  · simp only [freshness_penalty, Option.elim]
    exact shift_ite_add _ _ _

/-- The sequentially accumulated risk score equals base 1.0 plus the five
independent penalty terms, clamped at 5.0. -/
lemma risk_score_as_sum (b s : Listing) :
    calculate_risk_score b s =
      min (1 + reputation_penalty b.seller_rating +
        platform_penalty b.platform s.platform +
        margin_penalty b.total_cost s.price +
        freshness_penalty b.scraped_age_hours +
        condition_penalty b.condition s.condition) 5 := by
  simp only [calculate_risk_score]
  rw [shift_ite_mismatch, shift_fresh_add, shift_ite_add_nested, shift_ite_add2,
    shift_ite_add, shift_ite_add, shift_ite_add]
  unfold reputation_penalty platform_penalty margin_penalty condition_penalty
  congr 1
  ring

lemma reputation_penalty_bounds (r : ℚ) :
    0 ≤ reputation_penalty r ∧ reputation_penalty r ≤ 3/2 := by
  unfold reputation_penalty; split_ifs <;> norm_num

lemma platform_penalty_bounds (p q : String) :
    0 ≤ platform_penalty p q ∧ platform_penalty p q ≤ 4/10 := by
  unfold platform_penalty; split_ifs <;> norm_num

lemma margin_penalty_bounds (t p : ℚ) :
    0 ≤ margin_penalty t p ∧ margin_penalty t p ≤ 8/10 := by
  unfold margin_penalty; split_ifs <;> norm_num

lemma freshness_penalty_bounds (o : Option ℚ) :
    0 ≤ freshness_penalty o ∧ freshness_penalty o ≤ 2/10 := by
  rcases o with _ | h
  · norm_num [freshness_penalty]
  · simp only [freshness_penalty]
    split_ifs <;> norm_num

lemma condition_penalty_bounds (c d : String) :
    0 ≤ condition_penalty c d ∧ condition_penalty c d ≤ 1 := by
  unfold condition_penalty; split_ifs <;> norm_num

/-- A risk score computed for a condition-compatible pair carries no
condition-mismatch penalty, so it is at most 1.0 + 1.5 + 0.4 + 0.8 + 0.2. -/
lemma risk_score_le_of_compatible (b s : Listing)
    (h : assess_condition_compatibility b.condition s.condition = true) :
    calculate_risk_score b s ≤ 39/10 := by
  rw [risk_score_as_sum]
  refine le_trans (min_le_left _ _) ?_
  have h1 := reputation_penalty_bounds b.seller_rating
  have h2 := platform_penalty_bounds b.platform s.platform
  have h3 := margin_penalty_bounds b.total_cost s.price
  have h4 := freshness_penalty_bounds b.scraped_age_hours
  have h5 : condition_penalty b.condition s.condition = 0 := by
    unfold condition_penalty; simp [h]
  rw [h5]
  linarith [h1.2, h2.2, h3.2, h4.2]

lemma round_half_up_mono {x y : ℚ} (h : x ≤ y) : round_half_up x ≤ round_half_up y := by
  unfold round_half_up
  by_cases hx : 0 ≤ x
  · rw [if_pos hx, if_pos (le_trans hx h)]
    exact Int.floor_le_floor (by linarith)
  · rw [if_neg hx]
    by_cases hy : 0 ≤ y
    · rw [if_pos hy]
      have h1 : (0 : ℤ) ≤ ⌊-x + 1/2⌋ := Int.floor_nonneg.mpr (by push_neg at hx; linarith)
      have h2 : (0 : ℤ) ≤ ⌊y + 1/2⌋ := Int.floor_nonneg.mpr (by linarith)
      omega
    · rw [if_neg hy]
      have := Int.floor_le_floor (show -y + 1/2 ≤ -x + 1/2 by linarith)
      omega

lemma quantize2_mono {x y : ℚ} (h : x ≤ y) : quantize2 x ≤ quantize2 y := by
  unfold quantize2
  have h1 := round_half_up_mono (show x * 100 ≤ y * 100 by linarith)
  have h2 : ((round_half_up (x * 100) : ℚ)) ≤ ((round_half_up (y * 100) : ℚ)) :=
    Int.cast_le.mpr h1
  linarith

lemma fee_rate_nonneg (p : String) : 0 ≤ fee_rate p := by
  unfold fee_rate; split_ifs <;> norm_num

/-- Membership in a stable insertion is membership in the inserted
element or the original list. -/
lemma mem_insert_by {lt : α → α → Bool} {x a : α} {l : List α} :
    a ∈ insert_by lt x l ↔ a = x ∨ a ∈ l := by
  induction l with
  | nil => simp [insert_by]
  | cons y ys ih =>
    simp only [insert_by]
    split
    · rw [List.mem_cons, ih, List.mem_cons]
      tauto
    · exact List.mem_cons

/-- The function `sort_by` neither adds nor removes elements. -/
lemma mem_sort_by {lt : α → α → Bool} {l : List α} {a : α} :
    a ∈ sort_by lt l ↔ a ∈ l := by
  induction l with
  | nil => simp [sort_by]
  | cons y ys ih =>
    simp only [sort_by, List.foldr_cons] at *
    rw [mem_insert_by, ih, List.mem_cons]

lemma insert_by_perm (lt : α → α → Bool) (x : α) (l : List α) :
    List.Perm (insert_by lt x l) (x :: l) := by
  induction l with
  | nil => exact List.Perm.refl _
  | cons y ys ih =>
    simp only [insert_by]
    split
    · exact (List.Perm.cons y ih).trans (List.Perm.swap x y ys)
    · exact List.Perm.refl _

/-- The function `sort_by` permutes its input. -/
lemma sort_by_perm (lt : α → α → Bool) (l : List α) : List.Perm (sort_by lt l) l := by
  induction l with
  | nil => exact List.Perm.refl _
  | cons y ys ih =>
    simp only [sort_by, List.foldr_cons] at *
    exact (insert_by_perm lt y _).trans (List.Perm.cons y ih)

/-- Inserting into a list sorted by non-increasing key keeps it sorted. -/
lemma insert_by_sorted_desc (key : α → ℚ) (x : α) (l : List α)
    (h : l.Pairwise fun a b => key b ≤ key a) :
    (insert_by (fun a b => decide (key b < key a)) x l).Pairwise
      fun a b => key b ≤ key a := by
  induction l with
  | nil => simp [insert_by]
  | cons y ys ih =>
    rcases List.pairwise_cons.mp h with ⟨hy, hys⟩
    simp only [insert_by]
    split_ifs with hlt
    · simp only [decide_eq_true_eq] at hlt
      refine List.pairwise_cons.mpr ⟨?_, ih hys⟩
      intro z hz
      rcases mem_insert_by.mp hz with rfl | hzys
      · exact le_of_lt hlt
      · exact hy z hzys
    · simp only [decide_eq_true_eq, not_lt] at hlt
      refine List.pairwise_cons.mpr ⟨?_, h⟩
      intro z hz
      rcases List.mem_cons.mp hz with rfl | hzys
      · exact hlt
      · exact le_trans (hy z hzys) hlt

/-- The descending stable sort yields a sequence non-increasing in the
key. -/
lemma sort_by_sorted_desc (key : α → ℚ) (l : List α) :
    (sort_by (fun a b => decide (key b < key a)) l).Pairwise
      fun a b => key b ≤ key a := by
  induction l with
  | nil => simp [sort_by]
  | cons y ys ih =>
    simp only [sort_by, List.foldr_cons] at *
    exact insert_by_sorted_desc key y _ ih

/-- Everything in the deduplicated list comes from the input. -/
lemma mem_dedup_step {acc : List Opportunity} {o x : Opportunity}
    (hx : x ∈ dedup_step acc o) : x ∈ acc ∨ x = o := by
  unfold dedup_step at hx
  split at hx
  · rcases List.mem_map.mp hx with ⟨e, he, hfe⟩
    by_cases hc : opp_key e = opp_key o ∧ e.confidence_level < o.confidence_level
    · rw [if_pos hc] at hfe
      exact Or.inr hfe.symm
    · rw [if_neg hc] at hfe
      exact Or.inl (hfe ▸ he)
  · rcases List.mem_append.mp hx with h | h
    · exact Or.inl h
    · exact Or.inr (List.mem_singleton.mp h)

lemma mem_deduplicate_foldl :
    ∀ (l : List Opportunity) (acc : List Opportunity) (x : Opportunity),
      x ∈ List.foldl dedup_step acc l → x ∈ acc ∨ x ∈ l := by
  intro l
  induction l with
  | nil => intro acc x hx; exact Or.inl hx
  | cons o t ih =>
    intro acc x hx
    rcases ih (dedup_step acc o) x hx with h | h
    · rcases mem_dedup_step h with h' | h'
      · exact Or.inl h'
      · exact Or.inr (h' ▸ List.mem_cons_self o t)
    · exact Or.inr (List.mem_cons_of_mem o h)

/-- The function `deduplicate` only keeps opportunities of its input. -/
lemma mem_deduplicate {l : List Opportunity} {x : Opportunity}
    (hx : x ∈ deduplicate l) : x ∈ l := by
  rcases mem_deduplicate_foldl l [] x hx with h | h
  · cases h
  · exact h

/-- Any element already dominated in the accumulator stays dominated by a
same-key, at-least-as-confident survivor after one dedup step. -/
lemma dedup_step_dominates_mem {acc : List Opportunity} (o : Opportunity)
    {x : Opportunity} (hx : x ∈ acc) :
    ∃ y ∈ dedup_step acc o, opp_key y = opp_key x ∧
      x.confidence_level ≤ y.confidence_level := by
  unfold dedup_step
  split
  · by_cases hc : opp_key x = opp_key o ∧ x.confidence_level < o.confidence_level
    · exact ⟨o, List.mem_map.mpr ⟨x, hx, by simp [hc.1, hc.2]⟩, hc.1.symm, le_of_lt hc.2⟩
    · exact ⟨x, List.mem_map.mpr ⟨x, hx, by simp only [if_neg hc]⟩, rfl, le_refl _⟩
  · exact ⟨x, List.mem_append_left _ hx, rfl, le_refl _⟩

/-- The newly inserted opportunity is dominated by a same-key,
at-least-as-confident survivor after one dedup step. -/
lemma dedup_step_dominates_self (acc : List Opportunity) (o : Opportunity) :
    ∃ y ∈ dedup_step acc o, opp_key y = opp_key o ∧
      o.confidence_level ≤ y.confidence_level := by
  unfold dedup_step
  split_ifs with hany
  · rcases List.any_eq_true.mp hany with ⟨e, he, hke⟩
    simp only [decide_eq_true_eq] at hke
    by_cases hc : e.confidence_level < o.confidence_level
    · exact ⟨o, List.mem_map.mpr ⟨e, he, by simp [hke, hc]⟩, rfl, le_refl _⟩
    · exact ⟨e, List.mem_map.mpr ⟨e, he, by simp [hc]⟩, hke, not_lt.mp hc⟩
  · exact ⟨o, List.mem_append_right _ (List.mem_singleton_self o), rfl, le_refl _⟩

lemma deduplicate_foldl_dominates :
    ∀ (l : List Opportunity) (acc : List Opportunity) (x : Opportunity),
      x ∈ acc ∨ x ∈ l →
      ∃ y ∈ List.foldl dedup_step acc l, opp_key y = opp_key x ∧
        x.confidence_level ≤ y.confidence_level := by
  intro l
  induction l with
  | nil =>
    intro acc x hx
    rcases hx with hx | hx
    · exact ⟨x, hx, rfl, le_refl _⟩
    · cases hx
  | cons o t ih =>
    intro acc x hx
    have step : ∀ y ∈ dedup_step acc o, opp_key y = opp_key x ∧
        x.confidence_level ≤ y.confidence_level →
        ∃ z ∈ List.foldl dedup_step (dedup_step acc o) t, opp_key z = opp_key x ∧
          x.confidence_level ≤ z.confidence_level := by
      intro y hy hxy
      rcases ih (dedup_step acc o) y (Or.inl hy) with ⟨z, hz, hkz, hcz⟩
      exact ⟨z, hz, hkz.trans hxy.1, le_trans hxy.2 hcz⟩
    rcases hx with hacc | hxl
    · rcases dedup_step_dominates_mem o hacc with ⟨y, hy, hk, hc⟩
      exact step y hy ⟨hk, hc⟩
    · rcases List.mem_cons.mp hxl with rfl | hxt
      · rcases dedup_step_dominates_self acc x with ⟨y, hy, hk, hc⟩
        exact step y hy ⟨hk, hc⟩
      · exact ih (dedup_step acc o) x (Or.inr hxt)

/-- Assigning the composite score leaves the deduplication key unchanged. -/
lemma opp_key_with_composite (o : Opportunity) :
    opp_key (with_composite_score o) = opp_key o := rfl

/-- One dedup step keeps the stored keys pairwise distinct. -/
lemma dedup_step_pairwise_key {acc : List Opportunity} (o : Opportunity)
    (h : acc.Pairwise fun a b => opp_key a ≠ opp_key b) :
    (dedup_step acc o).Pairwise fun a b => opp_key a ≠ opp_key b := by
  unfold dedup_step
  split_ifs with hany
  · rw [List.pairwise_map]
    refine h.imp ?_
    intro a b hab
    have hka : ∀ e : Opportunity,
        opp_key (if opp_key e = opp_key o ∧ e.confidence_level < o.confidence_level
          then o else e) = opp_key e := by
      intro e
      by_cases hc : opp_key e = opp_key o ∧ e.confidence_level < o.confidence_level
      · rw [if_pos hc, hc.1]
      · rw [if_neg hc]
    simpa [hka] using hab
  · rw [List.pairwise_append]
    refine ⟨h, List.pairwise_singleton _ _, ?_⟩
    intro a ha b hb
    rw [List.mem_singleton] at hb
    subst hb
    simp only [List.any_eq_true, decide_eq_true_eq, not_exists, not_and] at hany
    exact hany a ha

lemma foldl_dedup_pairwise_key :
    ∀ (l acc : List Opportunity), (acc.Pairwise fun a b => opp_key a ≠ opp_key b) →
      (List.foldl dedup_step acc l).Pairwise fun a b => opp_key a ≠ opp_key b := by
  intro l
  induction l with
  | nil => intro acc h; exact h
  | cons o t ih => intro acc h; exact ih _ (dedup_step_pairwise_key o h)

/-- The deduplicated list has pairwise distinct keys. -/
lemma deduplicate_pairwise_key (l : List Opportunity) :
    (deduplicate l).Pairwise fun a b => opp_key a ≠ opp_key b :=
  foldl_dedup_pairwise_key l [] (List.Pairwise.nil)

/-- Every ranked opportunity is a deduplicated input opportunity with its
composite score assigned. -/
lemma mem_filter_and_rank {l : List Opportunity} {o : Opportunity}
    (h : o ∈ filter_and_rank_opportunities l) :
    ∃ o' ∈ l, o = with_composite_score o' := by
  unfold filter_and_rank_opportunities at h
  split_ifs at h
  · cases h
  · rw [mem_sort_by] at h
    rcases List.mem_map.mp h with ⟨o', ho', rfl⟩
    exact ⟨o', mem_deduplicate ho', rfl⟩

/-- The ranked list has pairwise distinct deduplication keys. -/
lemma filter_and_rank_pairwise_key (l : List Opportunity) :
    (filter_and_rank_opportunities l).Pairwise fun a b => opp_key a ≠ opp_key b := by
  unfold filter_and_rank_opportunities
  split_ifs
  · exact List.Pairwise.nil
  · have hd := deduplicate_pairwise_key l
    have hm : (((deduplicate l).map with_composite_score).Pairwise
        fun a b => opp_key a ≠ opp_key b) := by
      rw [List.pairwise_map]
      refine hd.imp ?_
      intro a b hab
      simpa [opp_key_with_composite] using hab
    exact ((sort_by_perm _ _).pairwise_iff fun hab => Ne.symm hab).mpr hm

/-- The ranked list is non-increasing in the composite score. -/
lemma filter_and_rank_sorted (l : List Opportunity) :
    (filter_and_rank_opportunities l).Pairwise
      fun a b => b.composite_score ≤ a.composite_score := by
  unfold filter_and_rank_opportunities
  split_ifs
  · exact List.Pairwise.nil
  · exact sort_by_sorted_desc (fun o : Opportunity => o.composite_score) _

/-- An assembled opportunity passed every threshold filter, and its
stored fields record the pair it came from. -/
lemma calculate_detailed_some {cfg : DetectorConfig} {b s : Listing} {card : String}
    {o : Opportunity} (h : calculate_detailed_opportunity cfg b s card = some o) :
    cfg.min_profit_margin ≤ o.profit_margin ∧
    cfg.min_profit_amount ≤ o.profit_amount ∧
    o.risk_score ≤ cfg.max_risk_score ∧
    o.buy_condition = b.condition ∧ o.sell_condition = s.condition ∧
    o.risk_score = calculate_risk_score b s := by
  simp only [calculate_detailed_opportunity] at h
  split_ifs at h with hm h1 h2 h3 h4 <;>
    first
      | exact Option.noConfusion h
      | (rw [Option.some.injEq] at h
         subst h
         push_neg at h1
         exact ⟨h1.1, h1.2, not_lt.mp h2, rfl, rfl, rfl⟩)
      | (rw [Option.some.injEq] at h
         subst h
         push_neg at h3
         exact ⟨h3.1, h3.2, not_lt.mp h4, rfl, rfl, rfl⟩)

/-- An opportunity produced by the pair analysis comes from a buy/sell
pair that passed the early filters, in particular condition
compatibility. -/
lemma mem_analyze_platform_pair {cfg : DetectorConfig} {buys sells : List Listing}
    {sp card : String} {o : Opportunity}
    (h : o ∈ analyze_platform_pair cfg buys sells sp card) :
    ∃ b s, b ∈ buys ∧ s ∈ sells ∧
      assess_condition_compatibility b.condition s.condition = true ∧
      calculate_detailed_opportunity cfg b s card = some o := by
  unfold analyze_platform_pair at h
  rcases List.mem_flatMap.mp h with ⟨b, hb, h2⟩
  rcases List.mem_filterMap.mp h2 with ⟨s, hs, h3⟩
  refine ⟨b, s, List.mem_of_mem_take hb, List.mem_of_mem_take hs, ?_⟩
  split_ifs at h3 with hc1 hc2 hc3 hc4 hc5 <;>
    first
      | exact Option.noConfusion h3
      | exact ⟨by simpa using hc5, h3⟩

/-- Every cross-platform opportunity comes from some directed platform
pair analysis. -/
lemma mem_find_cross {cfg : DetectorConfig} {groups : List (String × List Listing)}
    {card : String} {o : Opportunity}
    (h : o ∈ find_cross_platform_opportunities cfg groups card) :
    ∃ buys sells sp, o ∈ analyze_platform_pair cfg buys sells sp card := by
  unfold find_cross_platform_opportunities at h
  rcases List.mem_flatMap.mp h with ⟨pq, _, h2⟩
  rcases List.mem_append.mp h2 with h3 | h3
  · exact ⟨_, _, _, h3⟩
  · exact ⟨_, _, _, h3⟩

/-- C1: every opportunity returned by `detect_opportunities` satisfies the
three configured thresholds — profit margin at least `min_profit_margin`,
profit amount at least `min_profit_amount`, and risk score at most
`max_risk_score`; candidates failing any one of them are dropped and
never returned. -/
theorem detect_opportunities_filter_sound (cfg : DetectorConfig) (card : String)
    (listings : List Listing) (o : Opportunity)
    (h : o ∈ detect_opportunities cfg card listings) :
    cfg.min_profit_margin ≤ o.profit_margin ∧
    cfg.min_profit_amount ≤ o.profit_amount ∧
    o.risk_score ≤ cfg.max_risk_score := by
  unfold detect_opportunities at h
  split_ifs at h
  · cases h
  · rcases mem_filter_and_rank h with ⟨o', ho', rfl⟩
    rcases mem_find_cross ho' with ⟨buys, sells, sp, ha⟩
    rcases mem_analyze_platform_pair ha with ⟨b, s, _, _, _, hcalc⟩
    rcases calculate_detailed_some hcalc with ⟨h1, h2, h3, _, _, _⟩
    exact ⟨h1, h2, h3⟩

set_option maxRecDepth 8000 in
/-- Witness for C1: Scenario A's opportunity is returned under the
default configuration and satisfies all three thresholds. -/
theorem detect_opportunities_filter_sound_witness :
    default_config.min_profit_margin ≤ scenario_a_result.profit_margin ∧
    default_config.min_profit_amount ≤ scenario_a_result.profit_amount ∧
    scenario_a_result.risk_score ≤ default_config.max_risk_score :=
  detect_opportunities_filter_sound default_config "Charizard"
    [listing_a_ebay, listing_a_tcg] scenario_a_result (by with_unfolding_all decide)

/-- C10: every opportunity constructed by the pairing engine has
condition-compatible buy and sell listings (incompatible pairs are
skipped before the record is computed), so the +1.0 condition-mismatch
penalty never contributes and the risk score is at most 3.9. -/
theorem analyze_pair_condition_compatible_risk_bounded (cfg : DetectorConfig)
    (buys sells : List Listing) (sp card : String) (o : Opportunity)
    (h : o ∈ analyze_platform_pair cfg buys sells sp card) :
    assess_condition_compatibility o.buy_condition o.sell_condition = true ∧
    o.risk_score ≤ 39/10 := by
  rcases mem_analyze_platform_pair h with ⟨b, s, _, _, hcompat, hcalc⟩
  rcases calculate_detailed_some hcalc with ⟨_, _, _, hbc, hsc, hrisk⟩
  constructor
  · rw [hbc, hsc]
    exact hcompat
  · rw [hrisk]
    exact risk_score_le_of_compatible b s hcompat

/-- Witness for C10: the Scenario A pair analysis produces an opportunity
with compatible conditions and risk at most 3.9. -/
theorem analyze_pair_condition_compatible_risk_bounded_witness :
    assess_condition_compatibility
        ({scenario_a_result with composite_score := 0}).buy_condition
        ({scenario_a_result with composite_score := 0}).sell_condition = true ∧
    ({scenario_a_result with composite_score := 0}).risk_score ≤ 39/10 :=
  analyze_pair_condition_compatible_risk_bounded default_config
    [listing_a_ebay] [listing_a_tcg] "tcgplayer" "Charizard"
    {scenario_a_result with composite_score := 0} (by with_unfolding_all decide)

/-- C3: `calculate_risk_score` equals the reference definition — base 1.0
plus the cumulative reputation penalties, the platform penalty, the
too-good-to-be-true margin penalty, the freshness penalty and the
condition-mismatch penalty, clamped at 5.0 — and its value always lies in
`[1.0, 5.0]`. -/
theorem risk_score_matches_spec (b s : Listing) :
    calculate_risk_score b s = risk_score_spec b s ∧
    1 ≤ calculate_risk_score b s ∧ calculate_risk_score b s ≤ 5 := by
  refine ⟨?_, ?_, ?_⟩
  · rw [risk_score_as_sum]
    rfl
  · rw [risk_score_as_sum]
    refine le_min ?_ (by norm_num)
    have h1 := (reputation_penalty_bounds b.seller_rating).1
    have h2 := (platform_penalty_bounds b.platform s.platform).1
    have h3 := (margin_penalty_bounds b.total_cost s.price).1
    have h4 := (freshness_penalty_bounds b.scraped_age_hours).1
    have h5 := (condition_penalty_bounds b.condition s.condition).1
    linarith
  · rw [risk_score_as_sum]
    exact min_le_right _ _

/-- Counterexample for C5 as stated: the claim (and the source comment)
say risk 3.0 yields confidence 50, but the implemented formula
`100 - (3 - 1) * 20` yields 60. -/
theorem confidence_level_midpoint_counterexample :
    calculate_confidence_level 3 = 60 ∧ calculate_confidence_level 3 ≠ 50 := by
  unfold calculate_confidence_level
  norm_num

/-- C5 (amended): the confidence level is `100 - (risk - 1) * 20` clamped
to `[10, 100]`; on risk scores in `[1, 5]` the clamp is inactive, the
value lies in `[10, 100]`, and the function is strictly decreasing; risk
1 gives 100, risk 3 gives 60, risk 5 gives 20. -/
theorem confidence_level_formula_and_bounds :
    (∀ r : ℚ, calculate_confidence_level r = min (max (100 - (r - 1) * 20) 10) 100) ∧
    (∀ r : ℚ, 1 ≤ r → r ≤ 5 → calculate_confidence_level r = 100 - (r - 1) * 20 ∧
      10 ≤ calculate_confidence_level r ∧ calculate_confidence_level r ≤ 100) ∧
    (∀ r₁ r₂ : ℚ, 1 ≤ r₁ → r₁ < r₂ → r₂ ≤ 5 →
      calculate_confidence_level r₂ < calculate_confidence_level r₁) ∧
    calculate_confidence_level 1 = 100 ∧ calculate_confidence_level 3 = 60 ∧
    calculate_confidence_level 5 = 20 := by
  have hval : ∀ r : ℚ, 1 ≤ r → r ≤ 5 →
      calculate_confidence_level r = 100 - (r - 1) * 20 := by
    intro r h1 h5
    unfold calculate_confidence_level
    rw [min_eq_left (by linarith), max_eq_left (by linarith)]
  refine ⟨?_, ?_, ?_, ?_, ?_, ?_⟩
  · intro r
    unfold calculate_confidence_level
    simp only [min_def, max_def]
    split_ifs <;> linarith
  · intro r h1 h5
    refine ⟨hval r h1 h5, ?_, ?_⟩
    · rw [hval r h1 h5]; linarith
    · rw [hval r h1 h5]; linarith
  · intro r₁ r₂ h1 hlt h5
    rw [hval r₁ h1 (by linarith), hval r₂ (by linarith) h5]
    linarith
  · unfold calculate_confidence_level
    norm_num
  · unfold calculate_confidence_level
    norm_num
  · unfold calculate_confidence_level
    norm_num

/-- Witness for C5: the bounds and strict decrease instantiated at
concrete risk scores 2 and 3. -/
theorem confidence_level_formula_and_bounds_witness :
    (10 ≤ calculate_confidence_level 2 ∧ calculate_confidence_level 2 ≤ 100) ∧
    calculate_confidence_level 3 < calculate_confidence_level 2 := by
  obtain ⟨-, hb, hc, -⟩ := confidence_level_formula_and_bounds
  exact ⟨⟨(hb 2 (by norm_num) (by norm_num)).2.1, (hb 2 (by norm_num) (by norm_num)).2.2⟩,
    hc 2 3 (by norm_num) (by norm_num) (by norm_num)⟩

/-- C6: for a fixed platform, the platform fee is monotonically
non-decreasing in the sell amount. -/
theorem calculate_platform_fees_monotone (platform : String) (a₁ a₂ : ℚ)
    (h : a₁ ≤ a₂) :
    calculate_platform_fees platform a₁ ≤ calculate_platform_fees platform a₂ := by
  unfold calculate_platform_fees
  exact quantize2_mono (mul_le_mul_of_nonneg_right h (fee_rate_nonneg _))

/-- Witness for C6: fee monotonicity on ebay at amounts 1 and 2. -/
theorem calculate_platform_fees_monotone_witness :
    calculate_platform_fees "ebay" 1 ≤ calculate_platform_fees "ebay" 2 :=
  calculate_platform_fees_monotone "ebay" 1 2 (by norm_num)

set_option maxRecDepth 200000 in
/-- Counterexample for C2 as stated: with eleven valid distinct
opportunities, `detect_opportunities` returns more than
`max_opportunities_per_card` (default 10) elements — the truncation is
applied only to the stored slice, not to the returned sequence. -/
theorem detect_returned_exceeds_max_counterexample :
    default_config.max_opportunities_per_card <
      (detect_opportunities default_config "Pikachu" many_buy_listings).length := by
  with_unfolding_all decide

/-- C2 (amended): `detect_opportunities` deduplicates (pairwise distinct
buy/sell item-id keys) and ranks (non-increasing composite score) and
returns the full resulting sequence; only the stored slice is truncated
to the first `max_opportunities_per_card` elements. -/
theorem detect_full_list_stored_truncated (cfg : DetectorConfig) (card : String)
    (listings : List Listing) :
    stored_opportunities cfg card listings =
      (detect_opportunities cfg card listings).take cfg.max_opportunities_per_card ∧
    (stored_opportunities cfg card listings).length ≤ cfg.max_opportunities_per_card ∧
    (detect_opportunities cfg card listings).Pairwise
      (fun a b => opp_key a ≠ opp_key b) ∧
    (detect_opportunities cfg card listings).Pairwise
      (fun a b => b.composite_score ≤ a.composite_score) := by
  refine ⟨rfl, ?_, ?_, ?_⟩
  · exact List.length_take_le _ _
  · unfold detect_opportunities
    split_ifs
    · exact List.Pairwise.nil
    · exact filter_and_rank_pairwise_key _
  · unfold detect_opportunities
    split_ifs
    · exact List.Pairwise.nil
    · exact filter_and_rank_sorted _

/-- C4: on the Scenario A listing pool, `detect_opportunities` under the
default configuration yields exactly one opportunity — buy on ebay, sell
on tcgplayer — with buy total 10.00, platform fee 3.30 (= 30.00 × 0.11),
net sell amount 26.70, profit 16.70, margin 1.67, and risk score 1.8
(which includes the +0.8 over-100%-margin penalty) at most the maximum
2.0, so it is included. -/
theorem scenario_a_single_opportunity :
    detect_opportunities default_config "Charizard" [listing_a_ebay, listing_a_tcg] =
      [scenario_a_result] ∧
    scenario_a_result.buy_platform = "ebay" ∧
    scenario_a_result.sell_platform = "tcgplayer" ∧
    scenario_a_result.buy_total = 10 ∧
    scenario_a_result.platform_fees = 33/10 ∧
    scenario_a_result.platform_fees = calculate_platform_fees "tcgplayer" 30 ∧
    scenario_a_result.net_sell_amount = 267/10 ∧
    scenario_a_result.profit_amount = 167/10 ∧
    scenario_a_result.profit_margin = 167/100 ∧
    scenario_a_result.risk_score = 1 + 8/10 ∧
    scenario_a_result.risk_score ≤ default_config.max_risk_score := by
  with_unfolding_all decide

/-- Counterexample for C7 as stated: two listings with conditions "Mint"
and "Heavily Played", both otherwise profitable in the viable direction
(estimated profit 16.70 ≥ 5, price ratio within 80%), are NOT excluded
when the cheap listing is the Mint one: buying "Mint" to sell "Heavily
Played" passes the one-grade-tolerance filter (9 ≥ 2 - 1), and
`detect_opportunities` returns one opportunity, not an empty result. -/
theorem scenario_c_counterexample :
    assess_condition_compatibility "Mint" "Heavily Played" = true ∧
    5 ≤ (30 : ℚ) - 10 - calculate_platform_fees "tcgplayer" 30 ∧
    (10 : ℚ) ≤ 30 * default_config.max_price_ratio ∧
    (detect_opportunities default_config "Charizard"
      [listing_mint_cheap, listing_hp_expensive]).length = 1 := by
  with_unfolding_all decide

/-- C7 (amended): when the profitable direction buys the "Heavily Played"
listing and sells the "Mint" one, the condition-compatibility filter
(rank 2 < rank 9 - 1) rejects every candidate pair — the price filters
pass — and `detect_opportunities` returns the empty sequence. -/
theorem scenario_c_incompatible_direction_empty :
    assess_condition_compatibility "Heavily Played" "Mint" = false ∧
    5 ≤ (30 : ℚ) - 10 - calculate_platform_fees "tcgplayer" 30 ∧
    (10 : ℚ) ≤ 30 * default_config.max_price_ratio ∧
    detect_opportunities default_config "Charizard"
      [listing_hp_cheap, listing_mint_expensive] = [] := by
  with_unfolding_all decide

/-- C8: `deduplicate` keys opportunities by the `(buy_item_id,
sell_item_id)` pair; on a collision the strictly-higher-confidence
opportunity is kept and ties keep the first seen, and in any input list
every opportunity is dominated by a same-key survivor of at least its
confidence. -/
theorem deduplicate_keeps_highest_confidence :
    (∀ a b : Opportunity, a.buy_item_id = b.buy_item_id →
      a.sell_item_id = b.sell_item_id →
      deduplicate [a, b] =
        [if a.confidence_level < b.confidence_level then b else a]) ∧
    (∀ (l : List Opportunity) (x : Opportunity), x ∈ l →
      ∃ y ∈ deduplicate l, opp_key y = opp_key x ∧
        x.confidence_level ≤ y.confidence_level) := by
  constructor
  · intro a b h1 h2
    have hk : opp_key a = opp_key b := by
      unfold opp_key
      rw [h1, h2]
    unfold deduplicate
    simp only [List.foldl_cons, List.foldl_nil]
    have h0 : dedup_step [] a = [a] := rfl
    rw [h0]
    unfold dedup_step
    simp [hk]
  · intro l x hx
    exact deduplicate_foldl_dominates l [] x (Or.inr hx)

/-- Witness for C8 (Scenario E): of two opportunities with the same
buy/sell item-id pair and confidences 60 and 90, only the
higher-confidence instance survives deduplication. -/
theorem deduplicate_keeps_highest_confidence_witness :
    deduplicate [opp_e_low, opp_e_high] = [opp_e_high] := by
  have h := deduplicate_keeps_highest_confidence.1 opp_e_low opp_e_high rfl rfl
  rw [h, if_pos (show opp_e_low.confidence_level < opp_e_high.confidence_level from
    by with_unfolding_all decide)]

/-- C9: `safe_decimal` is NOT total — `Decimal(str(value))` on a
non-numeric string, and `quantize` on `Decimal('Infinity')` (which is
what `float('inf')` converts to), raise `decimal.InvalidOperation`, which
subclasses `ArithmeticError` and is not caught by the
`except (ValueError, TypeError, OverflowError)` clause; in particular the
platform-grouping sort key raises on a listing with no `total_cost`
field.  `None` and NaN inputs do return without raising. -/
theorem safe_decimal_uncaught_invalid_operation :
    safe_decimal (.pyFloat .inf) (.finite 0) = .error .invalidOperation ∧
    platform_group_sort_key none = .error .invalidOperation ∧
    safe_decimal (.pyStr "not_a_number") (.finite 0) = .error .invalidOperation ∧
    safe_decimal .pyNone (.finite 0) = .ok (.finite 0) ∧
    safe_decimal (.pyFloat .nan) (.finite 0) = .ok .decNaN := by
  refine ⟨?_, ?_, ?_, ?_, ?_⟩ <;> with_unfolding_all rfl
